import Mathlib

/-!
Verification of the hook/callback core of a WeeChat plugin-API binding
(crates/weechat/src/hooks/commands.rs).

The embedding models raw pointers as natural-number addresses (0 is the null
pointer), the boxed callback state as an explicit heap of live allocations,
and every call into the host plugin API as an entry appended to a trace.
Registration functions are parameterised over the identity pointer the host
chooses to return, so theorems can quantify over host behaviour.
-/

set_option autoImplicit false

/-- Raw pointer, modelled as a natural-number address; 0 is the null pointer. -/
abbrev Ptr := Nat

/-- Modelled from the spec: the process-wide execution environment — the
identity of the calling thread, the designated host-callback (main) thread,
and the pointer to the host plugin context returned by the singleton
accessor (the missing Weechat::weechat of this repository). -/
structure PluginEnv where
  currentThread : Nat
  mainThread : Nat
  weechat_ptr : Ptr
deriving DecidableEq, Repr

/-- The Weechat context handle (a wrapper around the raw plugin pointer). -/
structure Weechat where
  ptr : Ptr
deriving DecidableEq, Repr

/-- Modelled from the spec: a contextual buffer object resolved from a raw
buffer identifier via the Host Context (the missing Buffer type of this
repository). -/
structure Buffer where
  ptr : Ptr
deriving DecidableEq, Repr

def Weechat.from_ptr (p : Ptr) : Weechat := ⟨p⟩

/-- Modelled from the spec: resolve the raw buffer identifier into a
contextual buffer object via the Host Context. -/
def Weechat.buffer_from_ptr (_w : Weechat) (p : Ptr) : Buffer := ⟨p⟩

/-- Modelled from the spec: checkCallingThread — registration must only
happen on the thread the host invokes callbacks on. -/
def Weechat.check_thread (env : PluginEnv) : Prop :=
  env.currentThread = env.mainThread

instance (env : PluginEnv) : Decidable (Weechat.check_thread env) :=
  inferInstanceAs (Decidable (_ = _))

/-- Modelled from the spec: the host's default ("success") status constant
(the missing WEECHAT_RC_OK binding of this repository). -/
def WEECHAT_RC_OK : Int := 0

/-- Modelled from the spec: the host's "eaten" status constant (the missing
WEECHAT_RC_OK_EAT binding of this repository). -/
def WEECHAT_RC_OK_EAT : Int := 1

/-- Modelled from the spec: the two-value disposition domain returned by an
interceptor callback — Ok lets other handlers and the host's dispatch
proceed (Continue), OkEat suppresses further handling (Eat). The missing
ReturnCode type of this repository. -/
inductive ReturnCode where
  | Ok
  | OkEat
deriving DecidableEq, Repr

/-- Modelled from the spec: the numeric value of a disposition as relayed to
the host (the source's cast of the enum discriminant to a C int). -/
def ReturnCode.toInt : ReturnCode → Int
  | .Ok => WEECHAT_RC_OK
  | .OkEat => WEECHAT_RC_OK_EAT

/-- Modelled from the spec: the argument sequence handed to a command
callback — the raw argument vector split into a list, first element the
command name by host convention (the missing Args type of this repository). -/
abbrev Args := List String

/-- Modelled from the spec: Args::new — take the argc strings of the raw
argument vector, in order. -/
def Args.new (argc : Int) (argv : List String) : Args :=
  argv.take argc.toNat

/-- Modelled from the spec: the lossy text encoder used for every string
passed to the host — any sequence the host's C-string encoding cannot
represent (an embedded NUL) is substituted with a placeholder character,
never failing the call. The missing LossyCString type of this repository. -/
def LossyCString.new (t : String) : String :=
  ⟨t.data.map fun c => if c = Char.ofNat 0 then Char.ofNat 0xFFFD else c⟩

/-- One call into the host plugin API, as recorded on the trace. -/
inductive HostCall where
  | hook_command (plugin : Ptr) (name description args args_description completion : String)
      (cb_data : Ptr)
  | hook_command_run (plugin : Ptr) (command : String) (cb_data : Ptr)
  | unhook (hook : Ptr)
deriving DecidableEq, Repr

def HostCall.isUnhook : HostCall → Bool
  | .unhook _ => true
  | _ => false

/-- Number of deregistration calls on a trace. -/
def unhookCount (l : List HostCall) : Nat :=
  (l.filter HostCall.isUnhook).length

/-- The FFI world state: the next fresh heap address, the heap of live boxed
allocations of callback-state type D, and the trace of host-API calls. -/
structure HostState (D : Type) where
  nextAddr : Nat
  heap : List (Ptr × D)
  calls : List HostCall
deriving DecidableEq, Repr

/-- Box::new — allocate a fresh box on the heap; its stable address is
returned (Box::leak hands exactly this address out as a raw pointer). -/
def boxNew {D : Type} (d : D) (s : HostState D) : Ptr × HostState D :=
  (s.nextAddr,
    { s with nextAddr := s.nextAddr + 1, heap := s.heap ++ [(s.nextAddr, d)] })

/-- Dropping a box (obtained back through Box::from_raw) deallocates it. -/
def boxFree {D : Type} (p : Ptr) (s : HostState D) : HostState D :=
  { s with heap := s.heap.filter fun e => e.1 != p }

/-- In-place mutation through a reconstructed mutable borrow of the boxed
callback state. -/
def heapUpdate {D : Type} (p : Ptr) (d : D) (l : List (Ptr × D)) : List (Ptr × D) :=
  l.map fun e => if e.1 == p then (p, d) else e

/-- Well-formedness of the allocator: the next address is not yet in use. -/
def HeapFresh {D : Type} (s : HostState D) : Prop :=
  ∀ e ∈ s.heap, e.1 ≠ s.nextAddr

/-- CommandSettings: description of a new Weechat command (name, help text,
argument templates, argument description, completion templates). The field
name argument_descriptoin keeps the source's spelling. -/
structure CommandSettings where
  name : String
  description : String
  arguments : List String
  argument_descriptoin : String
  completion : List String
deriving DecidableEq, Repr

/-- Default::default() for CommandSettings. -/
def CommandSettings.default : CommandSettings :=
  ⟨"", "", [], "", []⟩

/-- CommandSettings::new — set the name, leave everything else default. -/
def CommandSettings.new (name : String) : CommandSettings :=
  { CommandSettings.default with name := name }

/-- CommandSettings::description (primed: the unprimed name is taken by the
field projection). -/
def CommandSettings.description' (s : CommandSettings) (descritpion : String) :
    CommandSettings :=
  { s with description := descritpion }

/-- CommandSettings::add_argument — push one argument template. -/
def CommandSettings.add_argument (s : CommandSettings) (argument : String) :
    CommandSettings :=
  { s with arguments := s.arguments ++ [argument] }

/-- CommandSettings::arguments_description. -/
def CommandSettings.arguments_description (s : CommandSettings) (descritpion : String) :
    CommandSettings :=
  { s with argument_descriptoin := descritpion }

/-- CommandSettings::add_completion — push one completion template. -/
def CommandSettings.add_completion (s : CommandSettings) (completion : String) :
    CommandSettings :=
  { s with completion := s.completion ++ [completion] }

/-- CommandHookData: the boxed callback state for a command hook — the
type-erased user callback (its state has type CB) plus the plugin pointer. -/
structure CommandHookData (CB : Type) where
  callback : CB
  weechat_ptr : Ptr
deriving DecidableEq, Repr

/-- CommandRunHookData: the boxed callback state for a command-run hook. -/
structure CommandRunHookData (CB : Type) where
  callback : CB
  weechat_ptr : Ptr
deriving DecidableEq, Repr

/-- The CommandCallback trait: the FnMut callback is modelled as a state
transformer on its own captured state CB. -/
structure CommandCallback (CB : Type) where
  callback : CB → Weechat → Buffer → Args → CB

/-- The CommandRunCallback trait: an FnMut returning a disposition. -/
structure CommandRunCallback (CB : Type) where
  callback : CB → Weechat → Buffer → String → CB × ReturnCode

/-- Hook: an active registration — the opaque hook identity returned by the
host plus the plugin pointer. -/
structure Hook where
  ptr : Ptr
  weechat_ptr : Ptr
deriving DecidableEq, Repr

/-- Modelled from the spec: Hook's destructor (missing from this
repository's sources here) calls the host's deregistration entry point with
the stored Hook Identity. -/
def Hook.drop {D : Type} (h : Hook) (s : HostState D) : HostState D :=
  { s with calls := s.calls ++ [HostCall.unhook h.ptr] }

/-- The outcome of an operation that may abort the process (the thread
contract violation): either a fatal abort, leaving the world state as it
was at the abort, or a normal value. -/
inductive Outcome (σ : Type) (α : Type) where
  | fatal (state : σ)
  | value (a : α)
deriving DecidableEq, Repr

/-- Command: the guard for a registered command — the Hook plus the owned
box of callback state (its address and contents). -/
structure Command (CB : Type) where
  hook : Hook
  hook_data : Ptr × CommandHookData CB
deriving DecidableEq, Repr

/-- CommandRun: the guard for a registered command-run hook. -/
structure CommandRun (CB : Type) where
  hook : Hook
  hook_data : Ptr × CommandRunHookData CB
deriving DecidableEq, Repr

/-- Command's destructor: fields drop in declaration order — the Hook first
(deregistration), then the boxed callback state (deallocation). -/
def Command.drop {CB : Type} (cmd : Command CB) (s : HostState (CommandHookData CB)) :
    HostState (CommandHookData CB) :=
  boxFree cmd.hook_data.1 (Hook.drop cmd.hook s)

/-- CommandRun's destructor, same shape as Command's. -/
def CommandRun.drop {CB : Type} (cmd : CommandRun CB)
    (s : HostState (CommandRunHookData CB)) : HostState (CommandRunHookData CB) :=
  boxFree cmd.hook_data.1 (Hook.drop cmd.hook s)

/-- The trampoline registered by Command::new (c_hook_cb): reconstruct a
mutable borrow of the callback state from the opaque pointer (a heap
dereference, none when the pointer is dangling), resolve the buffer, split
the arguments, run the user callback (writing its updated state back through
the borrow), and return WEECHAT_RC_OK unconditionally. -/
def Command.c_hook_cb {CB : Type} (inst : CommandCallback CB) (pointer : Ptr)
    (buffer : Ptr) (argc : Int) (argv : List String)
    (s : HostState (CommandHookData CB)) :
    Option (HostState (CommandHookData CB) × Int) :=
  match List.lookup pointer s.heap with
  | none => none
  | some hook_data =>
      let weechat := Weechat.from_ptr hook_data.weechat_ptr
      let buffer := Weechat.buffer_from_ptr weechat buffer
      let args := Args.new argc argv
      let cb := inst.callback hook_data.callback weechat buffer args
      some ({ s with heap := heapUpdate pointer { hook_data with callback := cb } s.heap },
        WEECHAT_RC_OK)

/-- The trampoline registered by CommandRun::new (c_hook_cb): reconstruct a
mutable borrow of the callback state, resolve the buffer, hand the raw
command line to the user callback, and relay the callback's disposition
value back to the host as the return code. -/
def CommandRun.c_hook_cb {CB : Type} (inst : CommandRunCallback CB) (pointer : Ptr)
    (buffer : Ptr) (command : String) (s : HostState (CommandRunHookData CB)) :
    Option (HostState (CommandRunHookData CB) × Int) :=
  match List.lookup pointer s.heap with
  | none => none
  | some hook_data =>
      let weechat := Weechat.from_ptr hook_data.weechat_ptr
      let buffer := Weechat.buffer_from_ptr weechat buffer
      let r := inst.callback hook_data.callback weechat buffer command
      some ({ s with heap := heapUpdate pointer { hook_data with callback := r.1 } s.heap },
        (r.2).toInt)

/-- Command::new. The pointer the host's hook_command returns is the
parameter hostResult (0 models a null identity). Mirrors the source: thread
check; lossy encoding of the five descriptor strings (argument and
completion lists joined with the separator); boxing and leaking the callback
state; the hook_command host call with the trampoline and the leaked
address; Box::from_raw reclaiming the state; building the Hook; on a null
identity the partially built Hook and the reclaimed box are dropped (in
reverse declaration order: unhook first, then deallocation) and Err is
returned, otherwise the guard bundles both. -/
def Command.new {CB : Type} (env : PluginEnv) (hostResult : Ptr)
    (command_settings : CommandSettings) (callback : CB)
    (s : HostState (CommandHookData CB)) :
    Outcome (HostState (CommandHookData CB))
      (Except Unit (Command CB) × HostState (CommandHookData CB)) :=
  if Weechat.check_thread env then
    let name := LossyCString.new command_settings.name
    let description := LossyCString.new command_settings.description
    let args := LossyCString.new (String.intercalate "||" command_settings.arguments)
    let args_description := LossyCString.new command_settings.argument_descriptoin
    let completion := LossyCString.new (String.intercalate "||" command_settings.completion)
    let data : CommandHookData CB := ⟨callback, env.weechat_ptr⟩
    let data_ref : Ptr := s.nextAddr
    let s1 : HostState (CommandHookData CB) :=
      { s with nextAddr := s.nextAddr + 1, heap := s.heap ++ [(data_ref, data)] }
    let hook_ptr : Ptr := hostResult
    let s2 : HostState (CommandHookData CB) :=
      { s1 with calls := s1.calls ++
          [HostCall.hook_command env.weechat_ptr name description args
            args_description completion data_ref] }
    let hook : Hook := ⟨hook_ptr, env.weechat_ptr⟩
    if hook_ptr = 0 then
      Outcome.value (Except.error (), boxFree data_ref (Hook.drop hook s2))
    else
      Outcome.value (Except.ok ⟨hook, (data_ref, data)⟩, s2)
  else
    Outcome.fatal s

/-- CommandRun::new, the interceptor registration. Same shape as
Command::new except the descriptor is a single pattern string, and on a
null identity only the reclaimed box is dropped (no Hook was built on that
path in the source). -/
def CommandRun.new {CB : Type} (env : PluginEnv) (hostResult : Ptr)
    (command : String) (callback : CB) (s : HostState (CommandRunHookData CB)) :
    Outcome (HostState (CommandRunHookData CB))
      (Except Unit (CommandRun CB) × HostState (CommandRunHookData CB)) :=
  if Weechat.check_thread env then
    let data : CommandRunHookData CB := ⟨callback, env.weechat_ptr⟩
    let data_ref : Ptr := s.nextAddr
    let s1 : HostState (CommandRunHookData CB) :=
      { s with nextAddr := s.nextAddr + 1, heap := s.heap ++ [(data_ref, data)] }
    let command_c := LossyCString.new command
    let hook_ptr : Ptr := hostResult
    let s2 : HostState (CommandRunHookData CB) :=
      { s1 with calls := s1.calls ++
          [HostCall.hook_command_run env.weechat_ptr command_c data_ref] }
    if hook_ptr = 0 then
      Outcome.value (Except.error (), boxFree data_ref s2)
    else
      Outcome.value (Except.ok ⟨⟨hook_ptr, env.weechat_ptr⟩, (data_ref, data)⟩, s2)
  else
    Outcome.fatal s

/-! ## Helper lemmas -/

theorem filter_bne_append_fresh {D : Type} (l : List (Ptr × D)) (a : Ptr) (d : D)
    (h : ∀ e ∈ l, e.1 ≠ a) :
    (l ++ [(a, d)]).filter (fun e => e.1 != a) = l := by
  rw [List.filter_append]
  have h1 : l.filter (fun e => e.1 != a) = l := by
    apply List.filter_eq_self.mpr
    intro e he
    simpa using h e he
  have h2 : [(a, d)].filter (fun (e : Ptr × D) => e.1 != a) = [] := by
    simp
  rw [h1, h2, List.append_nil]

theorem lookup_append_fresh {D : Type} (l : List (Ptr × D)) (a : Ptr) (d : D)
    (h : ∀ e ∈ l, e.1 ≠ a) :
    List.lookup a (l ++ [(a, d)]) = some d := by
  induction l with
  | nil => simp [List.lookup]
  | cons e t ih =>
      have he : e.1 ≠ a := h e (List.mem_cons_self e t)
      have hbeq : (a == e.1) = false := by
        simpa using fun hc => he hc.symm
      simp only [List.cons_append, List.lookup, hbeq]
      exact ih fun e' he' => h e' (List.mem_cons_of_mem e he')

theorem heapUpdate_append_fresh {D : Type} (l : List (Ptr × D)) (a : Ptr) {d d' : D}
    (h : ∀ e ∈ l, e.1 ≠ a) :
    heapUpdate a d' (l ++ [(a, d)]) = l ++ [(a, d')] := by
  induction l with
  | nil => simp [heapUpdate]
  | cons e t ih =>
      have he : (e.1 == a) = false := by
        simpa using h e (List.mem_cons_self e t)
      have ht := ih fun e' he' => h e' (List.mem_cons_of_mem e he')
      simp only [heapUpdate, List.map_cons, List.cons_append] at ht ⊢
      rw [he]
      simp only [Bool.false_eq_true, if_false, ht]

theorem unhookCount_append_not_unhook (l : List HostCall) (c : HostCall)
    (h : c.isUnhook = false) :
    unhookCount (l ++ [c]) = unhookCount l := by
  simp [unhookCount, List.filter_append, h]

/-! ## Shape lemmas for the registration flows -/

theorem command_new_ok_eq {CB : Type} (env : PluginEnv) (hostResult : Ptr)
    (st : CommandSettings) (cb : CB) (s : HostState (CommandHookData CB))
    (hth : Weechat.check_thread env) (hh : hostResult ≠ 0) :
    Command.new env hostResult st cb s =
      Outcome.value (Except.ok
        ⟨⟨hostResult, env.weechat_ptr⟩, (s.nextAddr, ⟨cb, env.weechat_ptr⟩)⟩,
        { nextAddr := s.nextAddr + 1,
          heap := s.heap ++ [(s.nextAddr, ⟨cb, env.weechat_ptr⟩)],
          calls := s.calls ++
            [HostCall.hook_command env.weechat_ptr (LossyCString.new st.name)
              (LossyCString.new st.description)
              (LossyCString.new (String.intercalate "||" st.arguments))
              (LossyCString.new st.argument_descriptoin)
              (LossyCString.new (String.intercalate "||" st.completion))
              s.nextAddr] }) := by
  simp only [Command.new]
  rw [if_pos hth, if_neg hh]

theorem command_new_err_eq {CB : Type} (env : PluginEnv)
    (st : CommandSettings) (cb : CB) (s : HostState (CommandHookData CB))
    (hth : Weechat.check_thread env) :
    Command.new env 0 st cb s =
      Outcome.value (Except.error (),
        boxFree s.nextAddr
          { nextAddr := s.nextAddr + 1,
            heap := s.heap ++ [(s.nextAddr, ⟨cb, env.weechat_ptr⟩)],
            calls := s.calls ++
              [HostCall.hook_command env.weechat_ptr (LossyCString.new st.name)
                (LossyCString.new st.description)
                (LossyCString.new (String.intercalate "||" st.arguments))
                (LossyCString.new st.argument_descriptoin)
                (LossyCString.new (String.intercalate "||" st.completion))
                s.nextAddr,
               HostCall.unhook 0] }) := by
  simp only [Command.new]
  rw [if_pos hth]
  simp [Hook.drop]

theorem command_run_new_ok_eq {CB : Type} (env : PluginEnv) (hostResult : Ptr)
    (command : String) (cb : CB) (s : HostState (CommandRunHookData CB))
    (hth : Weechat.check_thread env) (hh : hostResult ≠ 0) :
    CommandRun.new env hostResult command cb s =
      Outcome.value (Except.ok
        ⟨⟨hostResult, env.weechat_ptr⟩, (s.nextAddr, ⟨cb, env.weechat_ptr⟩)⟩,
        { nextAddr := s.nextAddr + 1,
          heap := s.heap ++ [(s.nextAddr, ⟨cb, env.weechat_ptr⟩)],
          calls := s.calls ++
            [HostCall.hook_command_run env.weechat_ptr (LossyCString.new command)
              s.nextAddr] }) := by
  simp only [CommandRun.new]
  rw [if_pos hth, if_neg hh]

theorem command_run_new_err_eq {CB : Type} (env : PluginEnv)
    (command : String) (cb : CB) (s : HostState (CommandRunHookData CB))
    (hth : Weechat.check_thread env) :
    CommandRun.new env 0 command cb s =
      Outcome.value (Except.error (),
        boxFree s.nextAddr
          { nextAddr := s.nextAddr + 1,
            heap := s.heap ++ [(s.nextAddr, ⟨cb, env.weechat_ptr⟩)],
            calls := s.calls ++
              [HostCall.hook_command_run env.weechat_ptr (LossyCString.new command)
                s.nextAddr] }) := by
  simp only [CommandRun.new]
  rw [if_pos hth]
  simp

/-- Computation of the command trampoline at a pointer whose dereference
succeeds. -/
theorem command_hook_cb_eq_of_lookup {CB : Type} (inst : CommandCallback CB)
    (pointer buffer : Ptr) (argc : Int) (argv : List String)
    (s : HostState (CommandHookData CB)) (d : CommandHookData CB)
    (hl : List.lookup pointer s.heap = some d) :
    Command.c_hook_cb inst pointer buffer argc argv s =
      some ({ s with heap := heapUpdate pointer ⟨inst.callback d.callback
            (Weechat.from_ptr d.weechat_ptr)
            (Weechat.buffer_from_ptr (Weechat.from_ptr d.weechat_ptr) buffer)
            (Args.new argc argv), d.weechat_ptr⟩ s.heap }, WEECHAT_RC_OK) := by
  unfold Command.c_hook_cb
  rw [hl]

/-- Computation of the interceptor trampoline at a pointer whose dereference
succeeds. -/
theorem command_run_hook_cb_eq_of_lookup {CB : Type} (inst : CommandRunCallback CB)
    (pointer buffer : Ptr) (command : String)
    (s : HostState (CommandRunHookData CB)) (d : CommandRunHookData CB)
    (hl : List.lookup pointer s.heap = some d) :
    CommandRun.c_hook_cb inst pointer buffer command s =
      some ({ s with heap := heapUpdate pointer ⟨(inst.callback d.callback
            (Weechat.from_ptr d.weechat_ptr)
            (Weechat.buffer_from_ptr (Weechat.from_ptr d.weechat_ptr) buffer)
            command).1, d.weechat_ptr⟩ s.heap },
        ((inst.callback d.callback (Weechat.from_ptr d.weechat_ptr)
            (Weechat.buffer_from_ptr (Weechat.from_ptr d.weechat_ptr) buffer)
            command).2).toInt) := by
  unfold CommandRun.c_hook_cb
  rw [hl]

/-! ## Claims -/

/-- Claim C10: each CommandSettings builder method modifies only its own
field: new sets the name and leaves description, arguments, argument
description and completion empty; description and arguments_description
overwrite only their own field, last write winning; add_argument and
add_completion append one entry at the end of their own list, preserving
every previously added entry and the order. -/
theorem commandSettings_builder_frame (n d1 d2 a c : String) (s : CommandSettings) :
    CommandSettings.new n =
      { name := n, description := "", arguments := [],
        argument_descriptoin := "", completion := [] } ∧
    s.description' d1 = { s with description := d1 } ∧
    (s.description' d1).description' d2 = { s with description := d2 } ∧
    s.arguments_description d1 = { s with argument_descriptoin := d1 } ∧
    (s.arguments_description d1).arguments_description d2 =
      { s with argument_descriptoin := d2 } ∧
    s.add_argument a = { s with arguments := s.arguments ++ [a] } ∧
    s.add_completion c = { s with completion := s.completion ++ [c] } :=
  ⟨rfl, rfl, rfl, rfl, rfl, rfl, rfl⟩

/-- Claim C9: with argc = 3 and the raw vector cmd, a, b, the Args sequence
the command trampoline hands to the user callback is exactly those three
elements in order, the command name first; witnessed by a callback that
records the argument list it receives into its own state. -/
theorem args_split_yields_argv_in_order :
    Args.new 3 ["cmd", "a", "b"] = ["cmd", "a", "b"] ∧
    Command.c_hook_cb ⟨fun _ _ _ args => args⟩ 1 9 3 ["cmd", "a", "b"]
        ⟨2, [(1, ⟨[], 5⟩)], []⟩ =
      some (⟨2, [(1, ⟨["cmd", "a", "b"], 5⟩)], []⟩, WEECHAT_RC_OK) :=
  ⟨rfl, rfl⟩

/-- Claim C4: the command trampoline returns the fixed success status
WEECHAT_RC_OK to the host on every invocation that dereferences its state,
for every user callback and independently of anything the callback does. -/
theorem command_trampoline_fixed_status {CB : Type} (inst : CommandCallback CB)
    (pointer buffer : Ptr) (argc : Int) (argv : List String)
    (s s' : HostState (CommandHookData CB)) (rc : Int)
    (h : Command.c_hook_cb inst pointer buffer argc argv s = some (s', rc)) :
    rc = WEECHAT_RC_OK := by
  cases hl : List.lookup pointer s.heap with
  | none =>
      unfold Command.c_hook_cb at h
      rw [hl] at h
      cases h
  | some d =>
      rw [command_hook_cb_eq_of_lookup inst pointer buffer argc argv s d hl] at h
      simp only [Option.some.injEq, Prod.mk.injEq] at h
      exact h.2.symm

theorem command_trampoline_fixed_status_witness :
    Command.c_hook_cb ⟨fun u _ _ _ => u⟩ 1 9 0 []
        ⟨2, [(1, ⟨(), 5⟩)], []⟩ = some (⟨2, [(1, ⟨(), 5⟩)], []⟩, WEECHAT_RC_OK) ∧
    (0 : Int) = WEECHAT_RC_OK :=
  ⟨rfl, command_trampoline_fixed_status ⟨fun u _ _ _ => u⟩ 1 9 0 []
    ⟨2, [(1, ⟨(), 5⟩)], []⟩ ⟨2, [(1, ⟨(), 5⟩)], []⟩ 0 rfl⟩

/-- Claim C7: both registration functions perform the calling-thread check
before any host call: invoked from any thread other than the designated
host-callback thread they abort fatally with the world state untouched (in
particular, no host call has been recorded), and the violation is never
returned as a recoverable value. -/
theorem off_thread_registration_is_fatal {CB CB' : Type} (env : PluginEnv)
    (hostResult : Ptr) (settings : CommandSettings) (pattern : String)
    (cb : CB) (cb' : CB') (s : HostState (CommandHookData CB))
    (t : HostState (CommandRunHookData CB'))
    (hth : ¬ Weechat.check_thread env) :
    Command.new env hostResult settings cb s = Outcome.fatal s ∧
    CommandRun.new env hostResult pattern cb' t = Outcome.fatal t ∧
    (∀ r, Command.new env hostResult settings cb s ≠ Outcome.value r) ∧
    (∀ r, CommandRun.new env hostResult pattern cb' t ≠ Outcome.value r) := by
  have h1 : Command.new env hostResult settings cb s = Outcome.fatal s := by
    unfold Command.new
    rw [if_neg hth]
  have h2 : CommandRun.new env hostResult pattern cb' t = Outcome.fatal t := by
    unfold CommandRun.new
    rw [if_neg hth]
  refine ⟨h1, h2, fun r hr => ?_, fun r hr => ?_⟩
  · rw [h1] at hr
    exact Outcome.noConfusion hr
  · rw [h2] at hr
    exact Outcome.noConfusion hr

theorem off_thread_registration_is_fatal_witness :
    ¬ Weechat.check_thread ⟨1, 0, 7⟩ ∧
    Command.new ⟨1, 0, 7⟩ 3 (CommandSettings.new "irc") () ⟨1, [], []⟩ =
      Outcome.fatal ⟨1, [], []⟩ ∧
    CommandRun.new ⟨1, 0, 7⟩ 3 "/buffer *" () ⟨1, [], []⟩ =
      Outcome.fatal ⟨1, [], []⟩ :=
  ⟨by decide,
    (off_thread_registration_is_fatal ⟨1, 0, 7⟩ 3 (CommandSettings.new "irc")
      "/buffer *" () () ⟨1, [], []⟩ ⟨1, [], []⟩ (by decide)).1,
    (off_thread_registration_is_fatal ⟨1, 0, 7⟩ 3 (CommandSettings.new "irc")
      "/buffer *" () () ⟨1, [], []⟩ ⟨1, [], []⟩ (by decide)).2.1⟩

/-- Claim C3: the interceptor trampoline relays the user callback's
disposition to the host: a callback answering OkEat (Eat) makes the
trampoline return the host's eaten constant, one answering Ok (Continue)
makes it return the host's default constant, and every value the trampoline
can return is one of exactly these two. -/
theorem interceptor_trampoline_relays_disposition {CB : Type}
    (inst : CommandRunCallback CB) (pointer buffer : Ptr) (command : String)
    (s : HostState (CommandRunHookData CB)) (d : CommandRunHookData CB)
    (hl : List.lookup pointer s.heap = some d) :
    ((inst.callback d.callback (Weechat.from_ptr d.weechat_ptr)
        (Weechat.buffer_from_ptr (Weechat.from_ptr d.weechat_ptr) buffer)
        command).2 = ReturnCode.OkEat →
      ∃ s', CommandRun.c_hook_cb inst pointer buffer command s =
        some (s', WEECHAT_RC_OK_EAT)) ∧
    ((inst.callback d.callback (Weechat.from_ptr d.weechat_ptr)
        (Weechat.buffer_from_ptr (Weechat.from_ptr d.weechat_ptr) buffer)
        command).2 = ReturnCode.Ok →
      ∃ s', CommandRun.c_hook_cb inst pointer buffer command s =
        some (s', WEECHAT_RC_OK)) ∧
    (∀ s' rc, CommandRun.c_hook_cb inst pointer buffer command s = some (s', rc) →
      rc = WEECHAT_RC_OK ∨ rc = WEECHAT_RC_OK_EAT) := by
  have key := command_run_hook_cb_eq_of_lookup inst pointer buffer command s d hl
  refine ⟨fun he => ?_, fun he => ?_, fun s' rc h => ?_⟩
  · exact ⟨_, by rw [key, he]; rfl⟩
  · exact ⟨_, by rw [key, he]; rfl⟩
  · rw [key] at h
    simp only [Option.some.injEq, Prod.mk.injEq] at h
    cases hr : (inst.callback d.callback (Weechat.from_ptr d.weechat_ptr)
        (Weechat.buffer_from_ptr (Weechat.from_ptr d.weechat_ptr) buffer)
        command).2 with
    | Ok =>
        left
        rw [← h.2, hr]
        rfl
    | OkEat =>
        right
        rw [← h.2, hr]
        rfl

theorem interceptor_trampoline_relays_disposition_witness :
    (∃ s', CommandRun.c_hook_cb ⟨fun u _ _ _ => (u, ReturnCode.OkEat)⟩
        1 9 "/buffer 2" ⟨2, [(1, ⟨(), 5⟩)], []⟩ = some (s', WEECHAT_RC_OK_EAT)) ∧
    (∃ s', CommandRun.c_hook_cb ⟨fun u _ _ _ => (u, ReturnCode.Ok)⟩
        1 9 "/buffer 2" ⟨2, [(1, ⟨(), 5⟩)], []⟩ = some (s', WEECHAT_RC_OK)) :=
  ⟨(interceptor_trampoline_relays_disposition ⟨fun u _ _ _ => (u, ReturnCode.OkEat)⟩
      1 9 "/buffer 2" ⟨2, [(1, ⟨(), 5⟩)], []⟩ ⟨(), 5⟩ rfl).1 rfl,
    (interceptor_trampoline_relays_disposition ⟨fun u _ _ _ => (u, ReturnCode.Ok)⟩
      1 9 "/buffer 2" ⟨2, [(1, ⟨(), 5⟩)], []⟩ ⟨(), 5⟩ rfl).2.1 rfl⟩

/-- Claim C1: when the host's registration call returns a null identity,
Command::new and CommandRun::new both return an error, the boxed callback
state is freed — the heap afterwards is exactly the heap before, no leak —
and no guard survives: the partially built hook identity and the callback
state are both discarded. -/
theorem null_identity_errors_and_frees_state {CB CB' : Type} (env : PluginEnv)
    (settings : CommandSettings) (pattern : String) (cb : CB) (cb' : CB')
    (s : HostState (CommandHookData CB)) (t : HostState (CommandRunHookData CB'))
    (hth : Weechat.check_thread env) (hs : HeapFresh s) (ht : HeapFresh t) :
    (∃ s', Command.new env 0 settings cb s = Outcome.value (Except.error (), s') ∧
      s'.heap = s.heap) ∧
    (∃ t', CommandRun.new env 0 pattern cb' t = Outcome.value (Except.error (), t') ∧
      t'.heap = t.heap) := by
  constructor
  · refine ⟨_, command_new_err_eq env settings cb s hth, ?_⟩
    exact filter_bne_append_fresh s.heap s.nextAddr _ hs
  · refine ⟨_, command_run_new_err_eq env pattern cb' t hth, ?_⟩
    exact filter_bne_append_fresh t.heap t.nextAddr _ ht

theorem null_identity_errors_and_frees_state_witness :
    (∃ s', Command.new ⟨0, 0, 7⟩ 0 (CommandSettings.new "irc") ()
        ⟨1, [], []⟩ = Outcome.value (Except.error (), s') ∧ s'.heap = []) ∧
    (∃ t', CommandRun.new ⟨0, 0, 7⟩ 0 "/buffer *" () ⟨1, [], []⟩ =
        Outcome.value (Except.error (), t') ∧ t'.heap = []) :=
  null_identity_errors_and_frees_state ⟨0, 0, 7⟩ (CommandSettings.new "irc")
    "/buffer *" () () ⟨1, [], []⟩ ⟨1, [], []⟩ rfl
    (fun e he => absurd he (List.not_mem_nil e))
    (fun e he => absurd he (List.not_mem_nil e))

/-- Claim C2: a successful registration returns a guard storing the host's
hook identity; the registration itself records no deregistration call, and
destroying the guard appends exactly one deregistration call — with the
stored identity — to the trace: never zero calls and never more than one,
and only the guard's destruction triggers it. -/
theorem guard_drop_exactly_one_deregistration {CB CB' : Type} (env : PluginEnv)
    (hostResult : Ptr) (settings : CommandSettings) (pattern : String)
    (cb : CB) (cb' : CB') (s : HostState (CommandHookData CB))
    (t : HostState (CommandRunHookData CB'))
    (hth : Weechat.check_thread env) (hh : hostResult ≠ 0) :
    (∃ cmd s', Command.new env hostResult settings cb s =
        Outcome.value (Except.ok cmd, s') ∧
      cmd.hook.ptr = hostResult ∧
      unhookCount s'.calls = unhookCount s.calls ∧
      ∀ u, (Command.drop cmd u).calls = u.calls ++ [HostCall.unhook hostResult]) ∧
    (∃ cr t', CommandRun.new env hostResult pattern cb' t =
        Outcome.value (Except.ok cr, t') ∧
      cr.hook.ptr = hostResult ∧
      unhookCount t'.calls = unhookCount t.calls ∧
      ∀ u, (CommandRun.drop cr u).calls = u.calls ++ [HostCall.unhook hostResult]) := by
  constructor
  · refine ⟨_, _, command_new_ok_eq env hostResult settings cb s hth hh, rfl, ?_, ?_⟩
    · exact unhookCount_append_not_unhook s.calls _ rfl
    · intro u
      rfl
  · refine ⟨_, _, command_run_new_ok_eq env hostResult pattern cb' t hth hh, rfl, ?_, ?_⟩
    · exact unhookCount_append_not_unhook t.calls _ rfl
    · intro u
      rfl

theorem guard_drop_exactly_one_deregistration_witness :
    ∃ cmd s', Command.new ⟨0, 0, 7⟩ 3 (CommandSettings.new "irc") ()
        ⟨1, [], []⟩ = Outcome.value (Except.ok cmd, s') ∧
      cmd.hook.ptr = 3 ∧
      unhookCount s'.calls = unhookCount ([] : List HostCall) ∧
      ∀ u, (Command.drop cmd u).calls = u.calls ++ [HostCall.unhook 3] :=
  (guard_drop_exactly_one_deregistration ⟨0, 0, 7⟩ 3 (CommandSettings.new "irc")
    "/buffer *" () () ⟨1, [], []⟩ ⟨1, [], []⟩ rfl (by decide)).1

/-- The command trampoline on a state whose last allocation is the hooked
callback state: it invokes exactly the registered callback and writes the
updated state back in place — same address, all other allocations and the
call trace untouched. -/
theorem command_hook_cb_fresh_state {CB : Type} (inst : CommandCallback CB)
    (a buffer : Ptr) (argc : Int) (argv : List String) (cb : CB) (w : Ptr)
    (n : Nat) (heap0 : List (Ptr × CommandHookData CB)) (calls : List HostCall)
    (hfresh : ∀ e ∈ heap0, e.1 ≠ a) :
    Command.c_hook_cb inst a buffer argc argv ⟨n, heap0 ++ [(a, ⟨cb, w⟩)], calls⟩ =
      some (⟨n, heap0 ++ [(a, ⟨inst.callback cb (Weechat.from_ptr w)
          (Weechat.buffer_from_ptr (Weechat.from_ptr w) buffer)
          (Args.new argc argv), w⟩)], calls⟩, WEECHAT_RC_OK) := by
  rw [command_hook_cb_eq_of_lookup inst a buffer argc argv
      ⟨n, heap0 ++ [(a, ⟨cb, w⟩)], calls⟩ ⟨cb, w⟩
      (lookup_append_fresh heap0 a _ hfresh)]
  simp only [heapUpdate_append_fresh heap0 a hfresh]

/-- The interceptor trampoline on a state whose last allocation is the
hooked callback state, analogous to the command form. -/
theorem command_run_hook_cb_fresh_state {CB : Type} (inst : CommandRunCallback CB)
    (a buffer : Ptr) (command : String) (cb : CB) (w : Ptr)
    (n : Nat) (heap0 : List (Ptr × CommandRunHookData CB)) (calls : List HostCall)
    (hfresh : ∀ e ∈ heap0, e.1 ≠ a) :
    CommandRun.c_hook_cb inst a buffer command ⟨n, heap0 ++ [(a, ⟨cb, w⟩)], calls⟩ =
      some (⟨n, heap0 ++ [(a, ⟨(inst.callback cb (Weechat.from_ptr w)
          (Weechat.buffer_from_ptr (Weechat.from_ptr w) buffer) command).1,
          w⟩)], calls⟩,
        ((inst.callback cb (Weechat.from_ptr w)
          (Weechat.buffer_from_ptr (Weechat.from_ptr w) buffer) command).2).toInt) := by
  rw [command_run_hook_cb_eq_of_lookup inst a buffer command
      ⟨n, heap0 ++ [(a, ⟨cb, w⟩)], calls⟩ ⟨cb, w⟩
      (lookup_append_fresh heap0 a _ hfresh)]
  simp only [heapUpdate_append_fresh heap0 a hfresh]

/-- Claim C6: Command::new passes the host an argument string equal to the
settings' argument entries joined with the separator in original insertion
order, and a completion string equal to the completion entries joined with
the same separator in order, alongside the encoded name, description and
argument description. -/
theorem descriptor_strings_joined_in_order {CB : Type} (env : PluginEnv)
    (hostResult : Ptr) (settings : CommandSettings) (cb : CB)
    (s : HostState (CommandHookData CB))
    (hth : Weechat.check_thread env) (hh : hostResult ≠ 0) :
    ∃ cmd s', Command.new env hostResult settings cb s =
        Outcome.value (Except.ok cmd, s') ∧
      s'.calls = s.calls ++
        [HostCall.hook_command env.weechat_ptr (LossyCString.new settings.name)
          (LossyCString.new settings.description)
          (LossyCString.new (String.intercalate "||" settings.arguments))
          (LossyCString.new settings.argument_descriptoin)
          (LossyCString.new (String.intercalate "||" settings.completion))
          s.nextAddr] :=
  ⟨_, _, command_new_ok_eq env hostResult settings cb s hth hh, rfl⟩

theorem descriptor_strings_joined_in_order_witness :
    ∃ cmd s', Command.new ⟨0, 0, 7⟩ 3
        (((CommandSettings.new "irc").add_completion "server").add_completion
          "connect") () ⟨1, [], []⟩ = Outcome.value (Except.ok cmd, s') ∧
      s'.calls = [HostCall.hook_command 7 "irc" "" "" "" "server||connect" 1] := by
  obtain ⟨cmd, s', h1, h2⟩ := descriptor_strings_joined_in_order ⟨0, 0, 7⟩ 3
    (((CommandSettings.new "irc").add_completion "server").add_completion "connect")
    () ⟨1, [], []⟩ rfl (by decide)
  refine ⟨cmd, s', h1, ?_⟩
  rw [h2]
  rfl

/-- Claim C8: string serialization toward the host is total — the lossy
encoder is a total function whose output contains only representable
(NUL-free) characters, unrepresentable ones having been substituted by the
placeholder — and no registration call fails because of the text content of
its strings: on the callback thread the outcome is an error exactly when
the host returned a null identity, for every choice of strings. -/
theorem lossy_encoding_total_and_infallible {CB CB' : Type} (env : PluginEnv)
    (hostResult : Ptr) (settings : CommandSettings) (pattern : String)
    (cb : CB) (cb' : CB') (s : HostState (CommandHookData CB))
    (t : HostState (CommandRunHookData CB'))
    (hth : Weechat.check_thread env) :
    (∀ str : String, ∀ c ∈ (LossyCString.new str).data, c ≠ Char.ofNat 0) ∧
    ((∃ s', Command.new env hostResult settings cb s =
        Outcome.value (Except.error (), s')) ↔ hostResult = 0) ∧
    ((∃ t', CommandRun.new env hostResult pattern cb' t =
        Outcome.value (Except.error (), t')) ↔ hostResult = 0) := by
  refine ⟨?_, ⟨?_, ?_⟩, ⟨?_, ?_⟩⟩
  · intro str c hc
    have hc' : c ∈ str.data.map
        (fun c0 => if c0 = Char.ofNat 0 then Char.ofNat 0xFFFD else c0) := hc
    obtain ⟨c0, _, rfl⟩ := List.mem_map.mp hc'
    by_cases h0 : c0 = Char.ofNat 0
    · rw [if_pos h0]
      decide
    · rw [if_neg h0]
      exact h0
  · rintro ⟨s', hval⟩
    by_contra hne
    rw [command_new_ok_eq env hostResult settings cb s hth hne] at hval
    simp at hval
  · rintro rfl
    exact ⟨_, command_new_err_eq env settings cb s hth⟩
  · rintro ⟨t', hval⟩
    by_contra hne
    rw [command_run_new_ok_eq env hostResult pattern cb' t hth hne] at hval
    simp at hval
  · rintro rfl
    exact ⟨_, command_run_new_err_eq env pattern cb' t hth⟩

theorem lossy_encoding_total_and_infallible_witness :
    ((∃ s', Command.new ⟨0, 0, 7⟩ 0 (CommandSettings.new "irc") ()
        ⟨1, [], []⟩ = Outcome.value (Except.error (), s')) ↔ (0 : Ptr) = 0) ∧
    ((∃ t', CommandRun.new ⟨0, 0, 7⟩ 5 "/buffer *" () ⟨1, [], []⟩ =
        Outcome.value (Except.error (), t')) ↔ (5 : Ptr) = 0) :=
  ⟨((lossy_encoding_total_and_infallible ⟨0, 0, 7⟩ 0 (CommandSettings.new "irc")
      "/buffer *" () () ⟨1, [], []⟩ ⟨1, [], []⟩ rfl).2).1,
    ((lossy_encoding_total_and_infallible ⟨0, 0, 7⟩ 5 (CommandSettings.new "irc")
      "/buffer *" () () ⟨1, [], []⟩ ⟨1, [], []⟩ rfl).2).2⟩

/-- Claim C5: round-trip identity of the callback state, for both
registration kinds: the opaque pointer recorded in the host call equals the
address of the boxed state reclaimed into the guard; that box holds exactly
the registered callback, and dereferencing the pointer in the heap yields
it back; the trampoline invoked on that pointer runs precisely the
registered callback object and only borrows it — the updated state is
written back in place, the allocation stays live at the same address, all
other allocations and the trace are untouched, and ownership never moves. -/
theorem callback_state_round_trip {CB CB' : Type} (env : PluginEnv)
    (hostResult : Ptr) (settings : CommandSettings) (pattern : String)
    (cb : CB) (cb' : CB') (s : HostState (CommandHookData CB))
    (t : HostState (CommandRunHookData CB'))
    (hth : Weechat.check_thread env) (hh : hostResult ≠ 0)
    (hs : HeapFresh s) (ht : HeapFresh t) :
    (∃ cmd s', Command.new env hostResult settings cb s =
        Outcome.value (Except.ok cmd, s') ∧
      s'.calls = s.calls ++
        [HostCall.hook_command env.weechat_ptr (LossyCString.new settings.name)
          (LossyCString.new settings.description)
          (LossyCString.new (String.intercalate "||" settings.arguments))
          (LossyCString.new settings.argument_descriptoin)
          (LossyCString.new (String.intercalate "||" settings.completion))
          cmd.hook_data.1] ∧
      cmd.hook_data.2 = ⟨cb, env.weechat_ptr⟩ ∧
      List.lookup cmd.hook_data.1 s'.heap = some ⟨cb, env.weechat_ptr⟩ ∧
      (∀ inst buffer argc argv,
        Command.c_hook_cb inst cmd.hook_data.1 buffer argc argv s' =
          some (⟨s'.nextAddr,
            s.heap ++ [(cmd.hook_data.1, ⟨inst.callback cb
              (Weechat.from_ptr env.weechat_ptr)
              (Weechat.buffer_from_ptr (Weechat.from_ptr env.weechat_ptr) buffer)
              (Args.new argc argv), env.weechat_ptr⟩)],
            s'.calls⟩, WEECHAT_RC_OK))) ∧
    (∃ cr t', CommandRun.new env hostResult pattern cb' t =
        Outcome.value (Except.ok cr, t') ∧
      t'.calls = t.calls ++ [HostCall.hook_command_run env.weechat_ptr
        (LossyCString.new pattern) cr.hook_data.1] ∧
      cr.hook_data.2 = ⟨cb', env.weechat_ptr⟩ ∧
      List.lookup cr.hook_data.1 t'.heap = some ⟨cb', env.weechat_ptr⟩ ∧
      (∀ inst buffer command,
        CommandRun.c_hook_cb inst cr.hook_data.1 buffer command t' =
          some (⟨t'.nextAddr,
            t.heap ++ [(cr.hook_data.1, ⟨(inst.callback cb'
              (Weechat.from_ptr env.weechat_ptr)
              (Weechat.buffer_from_ptr (Weechat.from_ptr env.weechat_ptr) buffer)
              command).1, env.weechat_ptr⟩)],
            t'.calls⟩,
          ((inst.callback cb' (Weechat.from_ptr env.weechat_ptr)
            (Weechat.buffer_from_ptr (Weechat.from_ptr env.weechat_ptr) buffer)
            command).2).toInt))) := by
  constructor
  · refine ⟨⟨⟨hostResult, env.weechat_ptr⟩, (s.nextAddr, ⟨cb, env.weechat_ptr⟩)⟩, _,
      command_new_ok_eq env hostResult settings cb s hth hh, rfl, rfl, ?_, ?_⟩
    · exact lookup_append_fresh s.heap s.nextAddr _ hs
    · intro inst buffer argc argv
      exact command_hook_cb_fresh_state inst s.nextAddr buffer argc argv cb
        env.weechat_ptr (s.nextAddr + 1) s.heap
        (s.calls ++ [HostCall.hook_command env.weechat_ptr
          (LossyCString.new settings.name) (LossyCString.new settings.description)
          (LossyCString.new (String.intercalate "||" settings.arguments))
          (LossyCString.new settings.argument_descriptoin)
          (LossyCString.new (String.intercalate "||" settings.completion))
          s.nextAddr]) hs
  · refine ⟨⟨⟨hostResult, env.weechat_ptr⟩, (t.nextAddr, ⟨cb', env.weechat_ptr⟩)⟩, _,
      command_run_new_ok_eq env hostResult pattern cb' t hth hh, rfl, rfl, ?_, ?_⟩
    · exact lookup_append_fresh t.heap t.nextAddr _ ht
    · intro inst buffer command
      exact command_run_hook_cb_fresh_state inst t.nextAddr buffer command cb'
        env.weechat_ptr (t.nextAddr + 1) t.heap
        (t.calls ++ [HostCall.hook_command_run env.weechat_ptr
          (LossyCString.new pattern) t.nextAddr]) ht

theorem callback_state_round_trip_witness :
    ∃ cmd s', Command.new ⟨0, 0, 7⟩ 3 (CommandSettings.new "irc") ()
        ⟨1, [], []⟩ = Outcome.value (Except.ok cmd, s') ∧
      List.lookup cmd.hook_data.1 s'.heap = some ⟨(), 7⟩ := by
  obtain ⟨cmd, s', h1, _, _, h4, _⟩ := (callback_state_round_trip ⟨0, 0, 7⟩ 3
    (CommandSettings.new "irc") "/buffer *" () () ⟨1, [], []⟩ ⟨1, [], []⟩ rfl
    (by decide) (fun e he => absurd he (List.not_mem_nil e))
    (fun e he => absurd he (List.not_mem_nil e))).1
  exact ⟨cmd, s', h1, h4⟩
